import Mathlib

/-!
Shallow embedding of the system monitor (system_monitor.py, aimon.py):
process-table queries, the prompt assembly of the analysis step, the
inference HTTP client, and the background sampling loop.  Python floats
are modelled as rationals, Python strings as lists of characters, Python
dictionaries with fixed keys as structures with optional fields.
-/

set_option maxHeartbeats 1000000

/-- Python list slicing `l[:limit]` for an `int` limit: a nonnegative limit
keeps the first `limit` elements; a negative limit drops the last `|limit|`
elements (`l[:-k] = l[:len(l)-k]`, clamped at the empty list). -/
def pySliceTo {α : Type*} (limit : Int) (l : List α) : List α :=
  if 0 ≤ limit then l.take limit.toNat else l.take (l.length - (-limit).toNat)

/-- Python `sorted(l, key=key, reverse=True)`: a stable merge sort, descending
by `key`; elements with equal keys keep their original relative order. -/
def pySortDesc {α : Type*} (key : α → ℚ) (l : List α) : List α :=
  l.mergeSort (fun a b => decide (key b ≤ key a))

theorem pySortDesc_le_trans {α : Type*} (key : α → ℚ) :
    ∀ a b c : α, (decide (key b ≤ key a)) = true → (decide (key c ≤ key b)) = true →
      (decide (key c ≤ key a)) = true := by
  intro a b c hab hbc
  exact decide_eq_true (le_trans (of_decide_eq_true hbc) (of_decide_eq_true hab))

theorem pySortDesc_le_total {α : Type*} (key : α → ℚ) :
    ∀ a b : α, ((decide (key b ≤ key a)) || (decide (key a ≤ key b))) = true := by
  intro a b
  rcases le_total (key b) (key a) with h | h
  · simp [decide_eq_true h]
  · simp [decide_eq_true h]

theorem pySortDesc_pairwise {α : Type*} (key : α → ℚ) (l : List α) :
    (pySortDesc key l).Pairwise (fun a b => key b ≤ key a) := by
  have h := @List.sorted_mergeSort α (fun a b => decide (key b ≤ key a))
    (pySortDesc_le_trans key) (pySortDesc_le_total key) l
  exact h.imp (fun hab => of_decide_eq_true hab)

theorem pySortDesc_perm {α : Type*} (key : α → ℚ) (l : List α) :
    (pySortDesc key l).Perm l :=
  List.mergeSort_perm l _

theorem pySortDesc_length {α : Type*} (key : α → ℚ) (l : List α) :
    (pySortDesc key l).length = l.length :=
  List.length_mergeSort l

theorem pySortDesc_mem {α : Type*} (key : α → ℚ) (l : List α) (a : α) :
    a ∈ pySortDesc key l ↔ a ∈ l :=
  (pySortDesc_perm key l).mem_iff

theorem pySortDesc_stable {α : Type*} (key : α → ℚ) (l c : List α)
    (hp : c.Pairwise (fun a b => key a = key b)) (hs : c.Sublist l) :
    c.Sublist (pySortDesc key l) := by
  refine @List.sublist_mergeSort α (fun a b => decide (key b ≤ key a)) l
    (pySortDesc_le_trans key) (pySortDesc_le_total key) c ?_ hs
  exact hp.imp (fun h => decide_eq_true (le_of_eq h.symm))

theorem pySortDesc_take_drop {α : Type*} (key : α → ℚ) (l : List α) (n : ℕ) :
    ∀ a ∈ (pySortDesc key l).take n, ∀ b ∈ (pySortDesc key l).drop n, key b ≤ key a := by
  have hp := pySortDesc_pairwise key l
  rw [← List.take_append_drop n (pySortDesc key l)] at hp
  exact fun a ha b hb => (List.pairwise_append.mp hp).2.2 a ha b hb

/-! Process-table rows as `psutil.process_iter(['pid', 'name', 'cpu_times', 'username'])`
delivers them to `get_top_cpu_processes`: `cpu_times` is the per-process tuple of
cumulative CPU seconds (user, system, ...), `none` when unavailable. -/

/-- One enumerated process as seen by `get_top_cpu_processes`. -/
structure CpuProc where
  pid : Int
  name : List Char
  username : List Char
  cpu_times : Option (List ℚ)
  deriving DecidableEq

/-- One row of the result of `get_top_cpu_processes`. -/
structure CpuTimeRecord where
  pid : Int
  name : List Char
  username : List Char
  total_cpu_time : ℚ
  deriving DecidableEq

/-- Python truthiness of `pinfo.get('cpu_times')`: a non-`None`, nonempty tuple. -/
def cpuTimesAvailable (p : CpuProc) : Bool :=
  match p.cpu_times with
  | some (_ :: _) => true
  | _ => false

/-- The accumulation loop of `get_top_cpu_processes`: for every process whose
`cpu_times` is truthy, record `sum(cpu_times[:2])` (user plus system time). -/
def cpuRecordsOf (procs : List CpuProc) : List CpuTimeRecord :=
  procs.filterMap (fun p =>
    match p.cpu_times with
    | some (t :: ts) =>
        some { pid := p.pid, name := p.name, username := p.username,
               total_cpu_time := ((t :: ts).take 2).sum }
    | _ => none)

/-- `get_top_cpu_processes(limit)`: sort the accumulated records by
`total_cpu_time` descending (Python's stable sort) and return
`sorted_processes[:limit]`. -/
def get_top_cpu_processes (limit : Int) (procs : List CpuProc) : List CpuTimeRecord :=
  pySliceTo limit (pySortDesc (fun r => r.total_cpu_time) (cpuRecordsOf procs))

/-! Rows as `psutil.process_iter(['pid', 'name', 'username', 'memory_info'])`
delivers them to `get_memory_range_processes`. -/

/-- The `memory_info` tuple; only `rss` (resident set size in bytes) is read. -/
structure MemInfo where
  rss : Nat
  deriving DecidableEq

/-- One enumerated process as seen by `get_memory_range_processes`;
`memory_info` is `none` when unavailable. -/
structure MemProc where
  pid : Int
  name : List Char
  username : List Char
  memory_info : Option MemInfo
  deriving DecidableEq

/-- One row of the result of `get_memory_range_processes`. -/
structure MemRangeRecord where
  pid : Int
  name : List Char
  username : List Char
  rss_mb : ℚ
  deriving DecidableEq

/-- The scan loop of `get_memory_range_processes`: keep a process when
`mem_info` is truthy, `mem_info.rss` is truthy (nonzero), and
`min_bytes <= rss_bytes <= max_bytes` with `min_bytes = min_mb * 1024 * 1024`
and `max_bytes = max_mb * 1024 * 1024`; record `rss_bytes / (1024 * 1024)`. -/
def memRangeRecordsOf (min_mb max_mb : ℚ) (procs : List MemProc) : List MemRangeRecord :=
  procs.filterMap (fun p =>
    match p.memory_info with
    | some m =>
        if m.rss = 0 then none
        else if min_mb * 1024 * 1024 ≤ (m.rss : ℚ) ∧ (m.rss : ℚ) ≤ max_mb * 1024 * 1024 then
          some { pid := p.pid, name := p.name, username := p.username,
                 rss_mb := (m.rss : ℚ) / (1024 * 1024) }
        else none
    | none => none)

/-- `get_memory_range_processes(min_mb, max_mb)`: the matching records sorted
by `rss_mb` descending (Python's stable sort). -/
def get_memory_range_processes (min_mb max_mb : ℚ) (procs : List MemProc) : List MemRangeRecord :=
  pySortDesc (fun r => r.rss_mb) (memRangeRecordsOf min_mb max_mb procs)

/-! Host snapshot: `get_system_info` reads five gauges inside ONE try block;
each read outcome is modelled as an `Option` (`none` = the underlying call
raised).  If any read raises, the except branch returns the empty dict. -/

/-- Outcomes of the five underlying gauge reads, in the order the code
performs them. -/
structure GaugeReads where
  cpu : Option ℚ
  mem : Option ℚ
  disk : Option ℚ
  sent : Option Nat
  recv : Option Nat
  deriving DecidableEq

/-- The dictionary `get_system_info` returns: each key is present (`some`)
or absent (`none`). -/
structure SystemInfo where
  cpu_percent : Option ℚ
  memory_percent : Option ℚ
  disk_percent : Option ℚ
  bytes_sent : Option Nat
  bytes_received : Option Nat
  deriving DecidableEq

/-- The empty dictionary returned from the except branch. -/
def emptySystemInfo : SystemInfo :=
  { cpu_percent := none, memory_percent := none, disk_percent := none,
    bytes_sent := none, bytes_received := none }

/-- `get_system_info()`: the whole body is wrapped in one try/except, so the
full dictionary is built only when every read succeeds; the first raising
read aborts the block and the handler returns `{}`. -/
def get_system_info (r : GaugeReads) : SystemInfo :=
  match r.cpu, r.mem, r.disk, r.sent, r.recv with
  | some a, some b, some c, some d, some e =>
      { cpu_percent := some a, memory_percent := some b, disk_percent := some c,
        bytes_sent := some d, bytes_received := some e }
  | _, _, _, _, _ => emptySystemInfo

/-! Prompt assembly in `analyze_system_data` (aimon.py): process records as
`list_processes` builds them. -/

/-- One process record as `list_processes` returns it. -/
structure ProcEntry where
  pid : Int
  name : List Char
  username : List Char
  cmdline : List Char
  cpu_percent : ℚ
  memory_percent : Option ℚ
  rss : Nat
  deriving DecidableEq

/-- The process selection of `analyze_system_data`:
`sorted(processes, key=lambda p: p.get('cpu_percent', 0), reverse=True)[:20]`. -/
def processes_for_prompt (procs : List ProcEntry) : List ProcEntry :=
  (pySortDesc (fun p => p.cpu_percent) procs).take 20

/-- The sanitization applied to a command line after truncation:
`.replace('\n', ' ').replace('\r', '')`. -/
def sanitize_cmdline (s : List Char) : List Char :=
  (s.map (fun c => if c = '\n' then ' ' else c)).filter (fun c => c != '\r')

/-- The rendered command-line field of one prompt process line: truncate to
97 characters plus `"..."` when longer than 100 characters, then strip
newlines and carriage returns. -/
def cmdline_display (s : List Char) : List Char :=
  sanitize_cmdline (if 100 < s.length then s.take 97 ++ [('.' : Char), '.', '.'] else s)

/-! The AI-dispatch step of `run_background_monitor`: the loop keeps one timer
`last_ai_check_time`; on a tick at wall time `now` it invokes the analysis
when a client is configured and `now - last >= ai_check_interval`, and then
resets the timer to `now`. -/

/-- One tick's AI decision: returns (invoked this tick, timer after the tick). -/
def aiStep (aiConfigured : Bool) (aiInterval now last : ℚ) : Bool × ℚ :=
  if aiConfigured = true ∧ aiInterval ≤ now - last then (true, now) else (false, last)

/-- The AI decisions of a run of ticks at the given wall times, threading the
timer exactly as the loop body does. -/
def monitorTicks (aiConfigured : Bool) (aiInterval : ℚ) : ℚ → List ℚ → List Bool
  | _, [] => []
  | last, t :: ts =>
      (aiStep aiConfigured aiInterval t last).1 ::
        monitorTicks aiConfigured aiInterval (aiStep aiConfigured aiInterval t last).2 ts

/-! JSON values as Python's json/`requests` deliver them: the decoded body is
a tree of `None`/bool/int/str/list/dict values.  (Floats do not occur in the
responses the client inspects; integers cover the numeric leaves used.) -/

/-- A decoded JSON value. -/
inductive JVal where
  | null : JVal
  | jbool (b : Bool) : JVal
  | jint (n : Int) : JVal
  | jstr (s : List Char) : JVal
  | jarr (l : List JVal) : JVal
  | jobj (fields : List (List Char × JVal)) : JVal

/-- Python `repr` of a decoded JSON value, as `str()` of a container renders
its elements (`'` is `Char.ofNat 39`, braces are `Char.ofNat 123/125`). -/
def pyReprJ : JVal → List Char
  | .null => ("None").data
  | .jbool b => if b then ("True").data else ("False").data
  | .jint n => (toString n).data
  | .jstr s => [Char.ofNat 39] ++ s ++ [Char.ofNat 39]
  | .jarr l => [Char.ofNat 91] ++
      (List.intercalate ((", ").data) (l.attach.map (fun x =>
        match x with
        | ⟨v, _⟩ => pyReprJ v))) ++ [Char.ofNat 93]
  | .jobj fields => [Char.ofNat 123] ++
      (List.intercalate ((", ").data) (fields.attach.map (fun x =>
        match x with
        | ⟨(k, v), _⟩ => [Char.ofNat 39] ++ k ++ [Char.ofNat 39] ++ ((": ").data) ++ pyReprJ v))) ++
      [Char.ofNat 125]
decreasing_by
  all_goals
    rename_i hmem
    have h := List.sizeOf_lt_of_mem hmem
    simp at h ⊢
    omega

/-- Python `str()` as an f-string interpolates a value: a string is inserted
as is, anything else via its `repr`-style rendering. -/
def pyFormat : JVal → List Char
  | .jstr s => s
  | v => pyReprJ v

/-- Python `dict` lookup on a decoded JSON object. -/
def dictGet (fields : List (List Char × JVal)) (k : List Char) : Option JVal :=
  (fields.find? (fun kv => kv.1 = k)).map (fun kv => kv.2)

/-- A Python subscript key: a string or an integer. -/
inductive PyKey where
  | str (s : List Char) : PyKey
  | idx (i : Int) : PyKey

/-- The exceptions Python subscripting can raise. -/
inductive PyExc where
  | keyError : PyExc
  | indexError : PyExc
  | typeError : PyExc
  deriving DecidableEq

/-- Python subscripting `v[k]` on a decoded JSON value: dict lookup raises
`KeyError` when the key is missing, list/str indexing (with negative-index
wraparound) raises `IndexError` when out of range, and subscripting any
non-container (`None`, bool, int) — or a list/str with a string key —
raises `TypeError`. -/
def pySubscript (v : JVal) (k : PyKey) : Except PyExc JVal :=
  match v, k with
  | .jobj fields, .str s =>
      match dictGet fields s with
      | some x => .ok x
      | none => .error .keyError
  | .jobj _, .idx _ => .error .keyError
  | .jarr l, .idx i =>
      let j : Int := if i < 0 then i + l.length else i
      if j < 0 then .error .indexError
      else
        match l.get? j.toNat with
        | some x => .ok x
        | none => .error .indexError
  | .jarr _, .str _ => .error .typeError
  | .jstr s, .idx i =>
      let j : Int := if i < 0 then i + s.length else i
      if j < 0 then .error .indexError
      else
        match s.get? j.toNat with
        | some c => .ok (.jstr [c])
        | none => .error .indexError
  | .jstr _, .str _ => .error .typeError
  | _, _ => .error .typeError

/-- The lookup chain `response_json["choices"][0]["message"]["content"]`. -/
def extractChain (r : JVal) : Except PyExc JVal :=
  match pySubscript r (.str (("choices").data)) with
  | .error e => .error e
  | .ok c =>
    match pySubscript c (.idx 0) with
    | .error e => .error e
    | .ok c0 =>
      match pySubscript c0 (.str (("message").data)) with
      | .error e => .error e
      | .ok m => pySubscript m (.str (("content").data))

/-- Outcome of the extraction step of `get_ai_response_content`:
`malformedResponse` is the raised `Exception("Malformed response from Groq API")`;
`uncaughtTypeError` is a `TypeError` escaping the `except (KeyError, IndexError)`
handler. -/
inductive ExtractErr where
  | malformedResponse : ExtractErr
  | uncaughtTypeError : ExtractErr
  deriving DecidableEq

/-- The extraction step of `get_ai_response_content` (the spec's
`extract_completion_text`): the lookup chain wrapped in
`try ... except (KeyError, IndexError): raise Exception("Malformed response ...")` —
a `TypeError` from the chain is not caught. -/
def extract_completion_text (r : JVal) : Except ExtractErr JVal :=
  match extractChain r with
  | .ok v => .ok v
  | .error .keyError => .error .malformedResponse
  | .error .indexError => .error .malformedResponse
  | .error .typeError => .error .uncaughtTypeError

/-! The Groq HTTP client (aimon.py).  `requests.post` either raises a
`RequestException` carrying no response (connection failure) or returns a
`Response`; `raise_for_status()` raises an `HTTPError` (a `RequestException`
whose `.response` is the response) for a 4xx/5xx status.  A `requests`
`Response` object's truthiness is `self.ok`, i.e. `status < 400`. -/

/-- An HTTP response as the except handler of `chat_completions` sees it:
status code, whether `.text` is nonempty, the parse result of `.json()`
(`none` = the body does not parse and `.json()` raises), and `str(e)` of the
`HTTPError` that `raise_for_status` raises for this response. -/
structure HttpResponse where
  status : Nat
  textNonempty : Bool
  body : Option JVal
  httpErrText : List Char

/-- What `requests.post` did: returned a response, or raised a
`RequestException` with `e.response = None` and the given `str(e)`. -/
inductive TransportOutcome where
  | response (r : HttpResponse) : TransportOutcome
  | requestFailure (errText : List Char) : TransportOutcome

/-- Truthiness of a `requests` `Response`: `Response.__bool__` returns
`self.ok`, which is false exactly for 4xx/5xx status codes. -/
def responseTruthy (r : HttpResponse) : Bool :=
  decide (r.status < 400)

/-- Outcome of `Groq.chat_completions` (non-streaming, as every caller in
this system invokes it): the decoded JSON body on success, the raised
`Exception(f"Groq API Error: {error_message}")` on any `RequestException`,
or an uncaught decode error when a 2xx body does not parse. -/
inductive ChatResult where
  | success (j : JVal) : ChatResult
  | groqApiError (msg : List Char) : ChatResult
  | jsonDecodeFailure : ChatResult

/-- The error-message recovery of the except branch:
`error_details = e.response.json() if e.response and e.response.text else {}`
then `error_details.get("error", {}).get("message", str(e))`, with the bare
`except:` mapping any failure inside (an unparseable body, `.get` on a
non-dict) to `str(e)`. -/
def recoveredErrorMessage (details : Option JVal) (fallback : List Char) : List Char :=
  match details with
  | none => fallback
  | some d =>
    match d with
    | .jobj fields =>
      match dictGet fields (("error").data) with
      | some inner =>
        match inner with
        | .jobj ifields =>
          match dictGet ifields (("message").data) with
          | some v => pyFormat v
          | none => fallback
        | _ => fallback
      | none => fallback
    | _ => fallback

/-- `Groq.chat_completions` with `stream=False`: POST, `raise_for_status()`,
then `response.json()`; a `RequestException` is normalized into one
`Exception("Groq API Error: ...")`.  Note `e.response and e.response.text`
evaluates the truthiness of the `Response`, which is `False` for every
4xx/5xx response, so `error_details` is `{}` whenever an `HTTPError` carries
a response. -/
def chat_completions (t : TransportOutcome) : ChatResult :=
  match t with
  | .requestFailure errText =>
      .groqApiError ((("Groq API Error: ").data) ++ recoveredErrorMessage none errText)
  | .response r =>
      if 400 ≤ r.status then
        .groqApiError ((("Groq API Error: ").data) ++
          recoveredErrorMessage
            (if responseTruthy r && r.textNonempty then r.body else some (.jobj []))
            r.httpErrText)
      else
        match r.body with
        | some j => .success j
        | none => .jsonDecodeFailure

/-- Python whitespace for `str.strip()` (the ASCII whitespace characters). -/
def pyIsSpace (c : Char) : Bool :=
  c = ' ' || c = '\t' || c = '\n' || c = '\r' || c = Char.ofNat 11 || c = Char.ofNat 12

/-- Python `str.strip()`: drop leading and trailing whitespace. -/
def pyStrip (s : List Char) : List Char :=
  ((s.dropWhile pyIsSpace).reverse.dropWhile pyIsSpace).reverse

/-- The constructed client: holds the stripped API key. -/
structure GroqClient where
  api_key : List Char
  deriving DecidableEq

/-- Outcome of `Groq.__init__`: `configError` is the raised
`ValueError("API key is required")`. -/
inductive InitResult where
  | ok (c : GroqClient) : InitResult
  | configError : InitResult
  deriving DecidableEq

/-- `Groq.__init__(api_key)`: `if not api_key: raise ValueError(...)` — a
Python `str` is falsy exactly when empty — then store `api_key.strip()`. -/
def Groq_init (api_key : List Char) : InitResult :=
  if api_key = [] then .configError else .ok { api_key := pyStrip api_key }

/-! Helper lemmas and sample inputs. -/

theorem cpuRecordsOf_length (procs : List CpuProc)
    (hall : ∀ p ∈ procs, cpuTimesAvailable p = true) :
    (cpuRecordsOf procs).length = procs.length := by
  induction procs with
  | nil => rfl
  | cons p ps ih =>
    have hp := hall p (List.mem_cons_self p ps)
    have hps : ∀ q ∈ ps, cpuTimesAvailable q = true :=
      fun q hq => hall q (List.mem_cons_of_mem p hq)
    cases h : p.cpu_times with
    | none =>
      rw [cpuTimesAvailable, h] at hp
      simp at hp
    | some l =>
      cases l with
      | nil =>
        rw [cpuTimesAvailable, h] at hp
        simp at hp
      | cons t ts =>
        have hlen := ih hps
        rw [cpuRecordsOf] at hlen
        rw [cpuRecordsOf, List.filterMap_cons]
        simp only [h, List.length_cons]
        rw [hlen]

theorem memRangeRecordsOf_mem (min_mb max_mb : ℚ) (procs : List MemProc)
    (rec : MemRangeRecord) (h : rec ∈ memRangeRecordsOf min_mb max_mb procs) :
    ∃ rss : Nat, rss ≠ 0 ∧ min_mb * 1024 * 1024 ≤ (rss : ℚ) ∧
      (rss : ℚ) ≤ max_mb * 1024 * 1024 ∧ rec.rss_mb = (rss : ℚ) / (1024 * 1024) := by
  rw [memRangeRecordsOf, List.mem_filterMap] at h
  obtain ⟨p, _, hp⟩ := h
  cases hmi : p.memory_info with
  | none => rw [hmi] at hp; simp at hp
  | some m =>
    simp only [hmi] at hp
    by_cases h0 : m.rss = 0
    · rw [if_pos h0] at hp; simp at hp
    · rw [if_neg h0] at hp
      by_cases hc : min_mb * 1024 * 1024 ≤ (m.rss : ℚ) ∧ (m.rss : ℚ) ≤ max_mb * 1024 * 1024
      · rw [if_pos hc] at hp
        refine ⟨m.rss, h0, hc.1, hc.2, ?_⟩
        cases hp
        rfl
      · rw [if_neg hc] at hp; simp at hp

/-- Sample process with user time 2 and system time 3 (total 5). -/
def sampleCpuProcA : CpuProc :=
  { pid := 1, name := ("a").data, username := ("u").data, cpu_times := some [2, 3, 0] }

/-- Sample process with user time 1 and system time 1 (total 2). -/
def sampleCpuProcB : CpuProc :=
  { pid := 2, name := ("b").data, username := ("u").data, cpu_times := some [1, 1] }

/-- A two-process table. -/
def sampleCpuProcs : List CpuProc := [sampleCpuProcA, sampleCpuProcB]

/-- Sample process holding 2 MiB resident. -/
def sampleMemProc : MemProc :=
  { pid := 3, name := ("m").data, username := ("u").data, memory_info := some { rss := 2097152 } }

/-- The record `get_memory_range_processes` builds for `sampleMemProc`. -/
def sampleMemRecord : MemRangeRecord :=
  { pid := 3, name := ("m").data, username := ("u").data,
    rss_mb := (2097152 : ℚ) / (1024 * 1024) }

/-- C1: for every process list in which each process has available cumulative
CPU times, and every limit `N > 0`, `get_top_cpu_processes N` is the first
`N` entries of the stable descending sort of the per-process total CPU times
(sum of user and system time): it is sorted descending by `total_cpu_time`,
has length `min N (population)`, the sort is a permutation of the accumulated
records that keeps tied records in enumeration order, and no record outside
the returned top-`N` has a strictly greater `total_cpu_time` than a record
inside it. -/
theorem get_top_cpu_processes_topN_spec (procs : List CpuProc) (N : Int)
    (hN : 0 < N) (hall : ∀ p ∈ procs, cpuTimesAvailable p = true) :
    get_top_cpu_processes N procs =
      (pySortDesc (fun r => r.total_cpu_time) (cpuRecordsOf procs)).take N.toNat ∧
    (get_top_cpu_processes N procs).Pairwise
      (fun a b => b.total_cpu_time ≤ a.total_cpu_time) ∧
    (get_top_cpu_processes N procs).length = min N.toNat procs.length ∧
    (pySortDesc (fun r => r.total_cpu_time) (cpuRecordsOf procs)).Perm (cpuRecordsOf procs) ∧
    (∀ c : List CpuTimeRecord,
      c.Pairwise (fun a b => a.total_cpu_time = b.total_cpu_time) →
      c.Sublist (cpuRecordsOf procs) →
      c.Sublist (pySortDesc (fun r => r.total_cpu_time) (cpuRecordsOf procs))) ∧
    (∀ a ∈ get_top_cpu_processes N procs,
      ∀ b ∈ (pySortDesc (fun r => r.total_cpu_time) (cpuRecordsOf procs)).drop N.toNat,
        b.total_cpu_time ≤ a.total_cpu_time) := by
  have hslice : get_top_cpu_processes N procs =
      (pySortDesc (fun r => r.total_cpu_time) (cpuRecordsOf procs)).take N.toNat := by
    rw [get_top_cpu_processes, pySliceTo, if_pos (le_of_lt hN)]
  refine ⟨hslice, ?_, ?_, pySortDesc_perm _ _, pySortDesc_stable _ _, ?_⟩
  · rw [hslice]
    exact List.Pairwise.sublist (List.take_sublist _ _) (pySortDesc_pairwise _ _)
  · rw [hslice, List.length_take, pySortDesc_length, cpuRecordsOf_length procs hall]
  · rw [hslice]
    exact pySortDesc_take_drop _ _ _

/-- C1 witness: at a concrete two-process table and limit 1, the returned
sequence has length `min 1 2`. -/
theorem get_top_cpu_processes_topN_spec_witness :
    (get_top_cpu_processes 1 sampleCpuProcs).length = min (Int.toNat 1) sampleCpuProcs.length :=
  (get_top_cpu_processes_topN_spec sampleCpuProcs 1 (by decide) (by decide)).2.2.1

/-- C3 counterexample: with two processes and limit `-1`, Python's
`sorted_processes[:-1]` drops only the LAST element, so
`get_top_cpu_processes (-1)` returns one record, not the empty sequence the
claim asserts for every `limit <= 0`. -/
theorem get_top_cpu_processes_neg_limit_cex :
    (get_top_cpu_processes (-1) sampleCpuProcs).length = 1 ∧
    ¬ (get_top_cpu_processes (-1) sampleCpuProcs = []) := by
  have hlen : (get_top_cpu_processes (-1) sampleCpuProcs).length = 1 := by
    rw [get_top_cpu_processes, pySliceTo, if_neg (by decide)]
    simp [List.length_take, pySortDesc_length, cpuRecordsOf, sampleCpuProcs,
      sampleCpuProcA, sampleCpuProcB]
  refine ⟨hlen, fun h => ?_⟩
  rw [h] at hlen
  simp at hlen

/-- C3 amended: `get_top_cpu_processes 0` returns the empty sequence; for a
strictly negative limit `L`, Python slicing keeps all but the last `|L|`
sorted records, so the result has length `population - |L|` (truncated
subtraction: empty only when `|L|` is at least the population). -/
theorem get_top_cpu_processes_nonpos_limit (procs : List CpuProc) :
    get_top_cpu_processes 0 procs = [] ∧
    (∀ L : Int, L < 0 →
      (get_top_cpu_processes L procs).length =
        (cpuRecordsOf procs).length - (-L).toNat) := by
  constructor
  · rw [get_top_cpu_processes, pySliceTo]
    simp
  · intro L hL
    rw [get_top_cpu_processes, pySliceTo, if_neg (by omega)]
    rw [List.length_take, pySortDesc_length]
    exact Nat.min_eq_left (Nat.sub_le _ _)

/-- C3 amended witness: at the two-process table and limit `-1`, the result
has length `2 - 1`. -/
theorem get_top_cpu_processes_nonpos_limit_witness :
    (get_top_cpu_processes (-1) sampleCpuProcs).length =
      (cpuRecordsOf sampleCpuProcs).length - (-(-1) : Int).toNat :=
  (get_top_cpu_processes_nonpos_limit sampleCpuProcs).2 (-1) (by decide)

/-- C2: every record returned by `get_memory_range_processes` has resident
bytes (`rss_mb * 2^20`) inside the inclusive range
`[min_mb * 2^20, max_mb * 2^20]`; the result is sorted descending by
resident bytes; and inverted bounds (`min_mb > max_mb`) yield the empty
sequence rather than an error. -/
theorem get_memory_range_processes_spec (min_mb max_mb : ℚ) (procs : List MemProc) :
    (∀ rec ∈ get_memory_range_processes min_mb max_mb procs,
      min_mb * 1024 * 1024 ≤ rec.rss_mb * (1024 * 1024) ∧
      rec.rss_mb * (1024 * 1024) ≤ max_mb * 1024 * 1024) ∧
    (get_memory_range_processes min_mb max_mb procs).Pairwise
      (fun a b => b.rss_mb * (1024 * 1024) ≤ a.rss_mb * (1024 * 1024)) ∧
    (max_mb < min_mb → get_memory_range_processes min_mb max_mb procs = []) := by
  refine ⟨?_, ?_, ?_⟩
  · intro rec hrec
    rw [get_memory_range_processes, pySortDesc_mem] at hrec
    obtain ⟨rss, _, hlo, hhi, hmb⟩ := memRangeRecordsOf_mem min_mb max_mb procs rec hrec
    have hcancel : rec.rss_mb * (1024 * 1024) = (rss : ℚ) := by
      rw [hmb, div_mul_cancel₀]
      norm_num
    rw [hcancel]
    exact ⟨hlo, hhi⟩
  · have hp := pySortDesc_pairwise (fun r => r.rss_mb) (memRangeRecordsOf min_mb max_mb procs)
    exact hp.imp (fun h => by nlinarith)
  · intro hlt
    have hnil : memRangeRecordsOf min_mb max_mb procs = [] := by
      rw [memRangeRecordsOf, List.filterMap_eq_nil_iff]
      intro p _
      cases p.memory_info with
      | none => rfl
      | some m =>
        by_cases h0 : m.rss = 0
        · simp [h0]
        · by_cases hc : min_mb * 1024 * 1024 ≤ (m.rss : ℚ) ∧ (m.rss : ℚ) ≤ max_mb * 1024 * 1024
          · exfalso
            have h3 : min_mb * 1024 * 1024 ≤ max_mb * 1024 * 1024 := le_trans hc.1 hc.2
            have h4 : max_mb * 1024 * 1024 < min_mb * 1024 * 1024 := by
              have hpos : (0 : ℚ) < 1024 := by norm_num
              exact mul_lt_mul_of_pos_right (mul_lt_mul_of_pos_right hlt hpos) hpos
            linarith
          · simp [h0, hc]
    rw [get_memory_range_processes, hnil, pySortDesc, List.mergeSort_nil]

/-- C2 witness: with inverted bounds `min_mb = 2 > 1 = max_mb` the result at
a concrete one-process table is empty. -/
theorem get_memory_range_processes_spec_witness :
    get_memory_range_processes 2 1 [sampleMemProc] = [] :=
  (get_memory_range_processes_spec 2 1 [sampleMemProc]).2.2 (by norm_num)

/-- C10: `get_memory_range_processes` never returns a record with zero
resident size — a process whose `memory_info` is unavailable or whose `rss`
is 0 is filtered out by the truthiness test `if mem_info and mem_info.rss`,
even when `min_mb = 0` puts 0 inside the inclusive byte range. -/
theorem get_memory_range_processes_pos_rss (min_mb max_mb : ℚ) (procs : List MemProc) :
    ∀ rec ∈ get_memory_range_processes min_mb max_mb procs, 0 < rec.rss_mb := by
  intro rec hrec
  rw [get_memory_range_processes, pySortDesc_mem] at hrec
  obtain ⟨rss, h0, _, _, hmb⟩ := memRangeRecordsOf_mem min_mb max_mb procs rec hrec
  rw [hmb]
  apply div_pos
  · exact_mod_cast Nat.pos_of_ne_zero h0
  · norm_num

/-- C10 witness: the record for the sample 2 MiB process is returned with a
strictly positive `rss_mb`, for bounds `[1, 4]` MB. -/
theorem get_memory_range_processes_pos_rss_witness :
    0 < sampleMemRecord.rss_mb := by
  apply get_memory_range_processes_pos_rss 1 4 [sampleMemProc]
  have h1 : memRangeRecordsOf 1 4 [sampleMemProc] = [sampleMemRecord] := by
    rw [memRangeRecordsOf]
    simp only [List.filterMap_cons, List.filterMap_nil, sampleMemProc]
    norm_num [sampleMemRecord]
  rw [get_memory_range_processes, h1, pySortDesc, List.mergeSort_singleton]
  exact List.mem_singleton_self _

theorem sanitize_cmdline_length (s : List Char) :
    (sanitize_cmdline s).length ≤ s.length := by
  rw [sanitize_cmdline]
  exact le_trans (List.length_filter_le _ _) (le_of_eq (List.length_map _ _))

theorem sanitize_cmdline_append (a b : List Char) :
    sanitize_cmdline (a ++ b) = sanitize_cmdline a ++ sanitize_cmdline b := by
  rw [sanitize_cmdline, sanitize_cmdline, sanitize_cmdline, List.map_append, List.filter_append]

theorem newline_not_mem_sanitize (s : List Char) : ('\n') ∉ sanitize_cmdline s := by
  intro h
  rw [sanitize_cmdline, List.mem_filter] at h
  obtain ⟨hm, _⟩ := h
  rw [List.mem_map] at hm
  obtain ⟨c, _, hc⟩ := hm
  by_cases h1 : c = '\n'
  · rw [if_pos h1] at hc
    exact absurd hc (by decide)
  · rw [if_neg h1] at hc
    exact h1 hc

theorem cr_not_mem_sanitize (s : List Char) : ('\r') ∉ sanitize_cmdline s := by
  intro h
  rw [sanitize_cmdline, List.mem_filter] at h
  have h2 := h.2
  simp at h2

/-- Sample process record for the prompt-assembly claims. -/
def sampleProcEntry : ProcEntry :=
  { pid := 9, name := ("x").data, username := ("u").data, cmdline := ("cmd").data,
    cpu_percent := 1, memory_percent := none, rss := 1024 }

/-- C4: the prompt built by `analyze_system_data` contains at most 20 process
lines, selected as the first 20 of the stable descending sort by
`cpu_percent` (ties keep scan order, and no unselected process has a strictly
greater `cpu_percent` than a selected one), and every rendered command-line
field is at most 100 characters — the original truncated to 97 characters
plus an ellipsis when longer than 100 — and contains no newline or carriage
return. -/
theorem analyze_prompt_lines_spec (procs : List ProcEntry) :
    (processes_for_prompt procs).length ≤ 20 ∧
    (processes_for_prompt procs).Pairwise (fun a b => b.cpu_percent ≤ a.cpu_percent) ∧
    (∀ c : List ProcEntry,
      c.Pairwise (fun a b => a.cpu_percent = b.cpu_percent) →
      c.Sublist procs → c.Sublist (pySortDesc (fun p => p.cpu_percent) procs)) ∧
    (∀ a ∈ processes_for_prompt procs,
      ∀ b ∈ (pySortDesc (fun p => p.cpu_percent) procs).drop 20,
        b.cpu_percent ≤ a.cpu_percent) ∧
    (∀ p ∈ processes_for_prompt procs,
      (cmdline_display p.cmdline).length ≤ 100 ∧
      ('\n') ∉ cmdline_display p.cmdline ∧
      ('\r') ∉ cmdline_display p.cmdline ∧
      (100 < p.cmdline.length →
        cmdline_display p.cmdline =
          sanitize_cmdline (p.cmdline.take 97) ++ [('.' : Char), '.', '.'])) := by
  refine ⟨?_, ?_, pySortDesc_stable _ _, ?_, ?_⟩
  · rw [processes_for_prompt, List.length_take]
    exact min_le_left _ _
  · rw [processes_for_prompt]
    exact List.Pairwise.sublist (List.take_sublist _ _) (pySortDesc_pairwise _ _)
  · rw [processes_for_prompt]
    exact pySortDesc_take_drop _ _ _
  · intro p _
    refine ⟨?_, ?_, ?_, ?_⟩
    · by_cases h : 100 < p.cmdline.length
      · rw [cmdline_display, if_pos h]
        refine le_trans (sanitize_cmdline_length _) ?_
        rw [List.length_append]
        have h97 := List.length_take_le 97 p.cmdline
        simp only [List.length_cons, List.length_nil]
        omega
      · rw [cmdline_display, if_neg h]
        exact le_trans (sanitize_cmdline_length _) (by omega)
    · rw [cmdline_display]
      exact newline_not_mem_sanitize _
    · rw [cmdline_display]
      exact cr_not_mem_sanitize _
    · intro h
      rw [cmdline_display, if_pos h, sanitize_cmdline_append]
      have hdots : sanitize_cmdline [('.' : Char), '.', '.'] = [('.' : Char), '.', '.'] := by
        decide
      rw [hdots]

/-- C4 witness: at a concrete one-process table the prompt holds at most 20
process lines. -/
theorem analyze_prompt_lines_spec_witness :
    (processes_for_prompt [sampleProcEntry]).length ≤ 20 :=
  (analyze_prompt_lines_spec [sampleProcEntry]).1

/-- A successful non-streaming completion response. -/
def goodResponse : JVal :=
  .jobj [(("choices").data,
    .jarr [.jobj [(("message").data, .jobj [(("content").data, .jstr (("ok").data))])]])]

/-- A response with an empty choices array. -/
def emptyChoicesResponse : JVal := .jobj [(("choices").data, .jarr [])]

/-- A response whose single choice is `null`. -/
def nullChoiceResponse : JVal := .jobj [(("choices").data, .jarr [.null])]

/-- C5 counterexample: on `{"choices":[null]}` — a response in which
`choices[0].message.content` is absent — the code raises a `TypeError`
(subscripting `None` is not caught by `except (KeyError, IndexError)`), not
the claimed `MalformedResponseError`. -/
theorem extract_completion_text_null_choice_cex :
    extract_completion_text nullChoiceResponse = .error .uncaughtTypeError ∧
    ¬ (extract_completion_text nullChoiceResponse = .error .malformedResponse) := by
  refine ⟨rfl, fun h => ?_⟩
  injection h with h2
  exact ExtractErr.noConfusion h2

/-- C5 amended: the extraction returns `"ok"` on the expected shape, and
raises `MalformedResponseError` when the absence of
`choices[0].message.content` surfaces as a missing dictionary key or an
out-of-range list index (`{"choices":[]}`, `{}`, a choice without `message`,
a `message` without `content`); but when an intermediate value is present
and non-subscriptable (a `null` choice), a `TypeError` escapes instead. -/
theorem extract_completion_text_amended :
    extract_completion_text goodResponse = .ok (.jstr (("ok").data)) ∧
    extract_completion_text emptyChoicesResponse = .error .malformedResponse ∧
    extract_completion_text (.jobj []) = .error .malformedResponse ∧
    extract_completion_text (.jobj [(("choices").data, .jarr [.jobj []])]) =
      .error .malformedResponse ∧
    extract_completion_text
        (.jobj [(("choices").data, .jarr [.jobj [(("message").data, .jobj [])]])]) =
      .error .malformedResponse ∧
    extract_completion_text nullChoiceResponse = .error .uncaughtTypeError :=
  ⟨rfl, rfl, rfl, rfl, rfl, rfl⟩

/-- The HTTP 429 response of the C6 scenario: parseable body
`{"error":{"message":"rate limited"}}`, nonempty text, and the transport
error text of the `HTTPError` that `raise_for_status` raises. -/
def rateLimited429 : HttpResponse :=
  { status := 429, textNonempty := true,
    body := some (.jobj [(("error").data,
      .jobj [(("message").data, .jstr (("rate limited").data))])]),
    httpErrText :=
      ("429 Client Error: Too Many Requests for url: https://api.groq.com/openai/v1/chat/completions").data }

/-- C6: on HTTP 429 with body `{"error":{"message":"rate limited"}}` the
surfaced message is `"Groq API Error: "` followed by the raw transport error
text — the body's embedded message is never parsed, because
`if e.response and e.response.text` evaluates the truthiness of a `requests`
`Response`, which is `False` for every 4xx/5xx status, so `error_details` is
always `{}` in the handler.  The claim (and the code's own comment) expect
the embedded `"rate limited"` to be surfaced. -/
theorem chat_completions_429_body_ignored :
    chat_completions (.response rateLimited429) =
      .groqApiError ((("Groq API Error: ").data) ++ rateLimited429.httpErrText) ∧
    ¬ (chat_completions (.response rateLimited429) =
        .groqApiError (("rate limited").data)) ∧
    ¬ (chat_completions (.response rateLimited429) =
        .groqApiError ((("Groq API Error: ").data) ++ (("rate limited").data))) := by
  refine ⟨rfl, fun h => ?_, fun h => ?_⟩
  · injection h with h2
    exact absurd h2 (by decide)
  · injection h with h2
    exact absurd h2 (by decide)

/-- C7 counterexample: a whitespace-only API key (a single blank) passes the
falsiness test `if not api_key` — only the empty string is falsy — so
construction SUCCEEDS, holding the stripped (hence empty) key, instead of
failing with `ConfigError` as the claim asserts. -/
theorem groq_init_whitespace_cex :
    Groq_init [' '] = .ok { api_key := [] } ∧
    ¬ (Groq_init [' '] = .configError) := by
  refine ⟨rfl, fun h => ?_⟩
  exact InitResult.noConfusion h

/-- C7 amended: construction fails with `ConfigError` exactly when the
supplied key is the empty string; every nonempty key (including
whitespace-only ones) constructs a client holding the key with surrounding
whitespace stripped. -/
theorem groq_init_amended :
    Groq_init [] = .configError ∧
    (∀ k : List Char, k ≠ [] → Groq_init k = .ok { api_key := pyStrip k }) := by
  refine ⟨rfl, fun k hk => ?_⟩
  rw [Groq_init, if_neg hk]

/-- C7 amended witness: a concrete nonempty key constructs a client with the
stripped key. -/
theorem groq_init_amended_witness :
    Groq_init ((" abc ").data) = .ok { api_key := pyStrip ((" abc ").data) } :=
  groq_init_amended.2 ((" abc ").data) (by decide)

/-- Gauge reads in which the CPU read succeeds (returning 5) but the memory
read fails. -/
def samplePartialReads : GaugeReads :=
  { cpu := some 5, mem := none, disk := some 1, sent := some 2, recv := some 3 }

/-- C8 counterexample: when the CPU gauge read succeeds but the memory read
fails, the single try/except returns the EMPTY dictionary — the successfully
read `cpu_percent` is absent from the snapshot, contrary to the claim that
only the failing fields are absent. -/
theorem get_system_info_partial_failure_cex :
    get_system_info samplePartialReads = emptySystemInfo ∧
    ¬ ((get_system_info samplePartialReads).cpu_percent = some 5) := by
  refine ⟨rfl, fun h => ?_⟩
  exact Option.noConfusion h

/-- C8 amended: `get_system_info` never raises; it returns the full snapshot
when every gauge read succeeds, and the entirely empty snapshot (every field
absent, the successful reads included) as soon as any read fails. -/
theorem get_system_info_amended (r : GaugeReads) :
    ((∃ a, r.cpu = some a) ∧ (∃ b, r.mem = some b) ∧ (∃ c, r.disk = some c) ∧
        (∃ d, r.sent = some d) ∧ (∃ e, r.recv = some e) →
      get_system_info r =
        { cpu_percent := r.cpu, memory_percent := r.mem, disk_percent := r.disk,
          bytes_sent := r.sent, bytes_received := r.recv }) ∧
    ((r.cpu = none ∨ r.mem = none ∨ r.disk = none ∨ r.sent = none ∨ r.recv = none) →
      get_system_info r = emptySystemInfo) := by
  constructor
  · rintro ⟨⟨a, ha⟩, ⟨b, hb⟩, ⟨c, hc⟩, ⟨d, hd⟩, ⟨e, he⟩⟩
    simp [get_system_info, ha, hb, hc, hd, he]
  · intro h
    cases hc : r.cpu <;> cases hm : r.mem <;> cases hd2 : r.disk <;>
      cases hs : r.sent <;> cases hr : r.recv <;> simp_all [get_system_info]

/-- C8 amended witness: at the concrete partial-failure reads, the snapshot
is empty. -/
theorem get_system_info_amended_witness :
    get_system_info samplePartialReads = emptySystemInfo :=
  (get_system_info_amended samplePartialReads).2 (Or.inr (Or.inl rfl))

/-- C9: with an Inference Client configured, `ai_check_interval = 0` makes
the loop invoke the Analysis Orchestrator on every tick (given the wall
clock never runs backwards); a tick whose elapsed time since
`last_ai_check_time` is smaller than the interval never invokes it; and
every invoking tick resets `last_ai_check_time` to that tick's current
time. -/
theorem ai_check_schedule_spec :
    (∀ now last : ℚ, last ≤ now → (aiStep true 0 now last).1 = true) ∧
    (∀ (conf : Bool) (interval now last : ℚ), now - last < interval →
      (aiStep conf interval now last).1 = false) ∧
    (∀ (conf : Bool) (interval now last : ℚ), (aiStep conf interval now last).1 = true →
      (aiStep conf interval now last).2 = now) ∧
    (∀ (times : List ℚ) (last : ℚ), List.Chain' (fun a b => a ≤ b) (last :: times) →
      monitorTicks true 0 last times = times.map (fun _ => true)) := by
  refine ⟨?_, ?_, ?_, ?_⟩
  · intro now last h
    rw [aiStep, if_pos ⟨rfl, by linarith⟩]
  · intro conf interval now last h
    rw [aiStep, if_neg (fun hc => absurd hc.2 (not_le.mpr h))]
  · intro conf interval now last h
    rw [aiStep] at h ⊢
    by_cases hc : conf = true ∧ interval ≤ now - last
    · rw [if_pos hc]
    · rw [if_neg hc] at h
      simp at h
  · intro times
    induction times with
    | nil => intro last _; rfl
    | cons t ts ih =>
      intro last hchain
      rw [List.chain'_cons] at hchain
      have hstep : aiStep true 0 t last = (true, t) := by
        rw [aiStep, if_pos ⟨rfl, by linarith [hchain.1]⟩]
      show (aiStep true 0 t last).1 ::
        monitorTicks true 0 (aiStep true 0 t last).2 ts = true :: ts.map (fun _ => true)
      rw [hstep]
      exact congrArg (List.cons true) (ih t hchain.2)

/-- C9 witness: a concrete tick at time 5 with timer 3 and interval 0
invokes the analysis. -/
theorem ai_check_schedule_spec_witness :
    (aiStep true 0 5 3).1 = true :=
  ai_check_schedule_spec.1 5 3 (by decide)
